import Mathlib

/-!
Shallow embedding of the metanoia schema builder (`SchemaBuilder` and its
helpers) and proofs about its registry operations and `build()` compiler.

Modelling conventions:
- JavaScript objects used as string-keyed dictionaries are association lists
  (`AMap` below) whose `set` operation replaces the value at the first
  occurrence of a key in place (preserving insertion order) and appends new
  keys at the end, matching JS object assignment and spread semantics.
- JavaScript functions that the core never inspects (resolvers, subscribe
  hooks, serializers, default values of arguments) are represented by opaque
  `Nat` tokens compared by identity.
- A TypeScript class is represented by its prototype chain of names
  (self-first); class identity is chain equality.
- Enum objects are represented by an identity token plus their entries.
- Thrown exceptions are modelled with `Except String`; registry-mutating
  methods that can throw return the (unchanged) registry next to the error,
  mirroring the fact that the throw happens before any mutation.
-/

deriving instance DecidableEq for Except

/-- Association list with JS-object update semantics, generic in the key. -/
abbrev AMap (κ α : Type) := List (κ × α)

/-- The whitespace characters relevant to the trims in this development. -/
def isJsSpace (c : Char) : Bool :=
  c = ' ' || c = '\t' || c = '\n' || c = '\r'

/-- `String.prototype.trim`, implemented structurally over the character
list. -/
def jsTrim (s : String) : String :=
  ⟨((s.data.dropWhile isJsSpace).reverse.dropWhile isJsSpace).reverse⟩

/-- String-keyed dictionary, as in `Hash<T>` from `src/util/hash`. -/
abbrev Hash (α : Type) := AMap String α

/-- First value stored at a key (JS property read). -/
def AMap.find {κ α : Type} [DecidableEq κ] : AMap κ α → κ → Option α
  | [], _ => none
  | p :: rest, k => if p.1 = k then some p.2 else AMap.find rest k

/-- JS property assignment: replace in place, or append a new key. -/
def AMap.set {κ α : Type} [DecidableEq κ] : AMap κ α → κ → α → AMap κ α
  | [], k, v => [(k, v)]
  | p :: rest, k, v => if p.1 = k then (k, v) :: rest else p :: AMap.set rest k v

/-- JS object spread `\x7b ...p, ...c \x7d`: entries of `c` override `p`. -/
def hashMerge {α : Type} (p c : Hash α) : Hash α :=
  c.foldl (fun acc q => AMap.set acc q.1 q.2) p

/-- First `some` produced by `f` along a list (JS `Array.prototype.find`-style). -/
def firstHit {α β : Type} (f : α → Option β) : List α → Option β
  | [] => none
  | a :: l => match f a with
    | some b => some b
    | none => firstHit f l

/-- A TypeScript class, as its prototype chain of names, self first. -/
abbrev ClassRef := List String

/-- `Function.name` of a class. -/
def className (c : ClassRef) : String := c.headD ""

/-- Prototype walk of `getInheritanceTree` (src/util/tree.ts): pushes ancestors
while the prototype exists and has a truthy (non-empty) name. -/
def protoChain : List String → List ClassRef
  | [] => []
  | p :: rest => if p = "" then [] else (p :: rest) :: protoChain rest

/-- `getInheritanceTree` (src/util/tree.ts): the class itself, then its named
ancestors, nearest first. -/
def getInheritanceTree (c : ClassRef) : List ClassRef :=
  c :: protoChain c.tail

/-- Underlying value of a TypeScript enum member (string or number). -/
inductive EnumVal where
  | str (s : String)
  | num (n : Int)
deriving DecidableEq

/-- `EnumValueInfo` from src/types.ts; `value` is optional because
`decorateEnum` creates patch entries without one. Also reused as
`Partial<EnumValueInfo>`. -/
structure EnumValueInfo where
  value : Option EnumVal := none
  description : Option String := none
  deprecationReason : Option String := none
deriving DecidableEq

/-- A materialized `GraphQLEnumType`: name, description and value map. -/
structure GQLEnum where
  name : String
  description : Option String := none
  values : Hash EnumValueInfo := []
deriving DecidableEq

/-- A `GraphQLScalarType` value (built-in like `GraphQLString`, or one created
by the `scalar` decorator). Hooks are opaque tokens. -/
structure ScalarDef where
  name : String
  description : Option String := none
  serialize : Option Nat := none
  parseValue : Option Nat := none
  parseLiteral : Option Nat := none
deriving DecidableEq

/-- A GraphQL type value as produced by the compiler: materialized scalars and
enums are carried directly; interface/object/input types are carried by
reference to their unique name; `undef` is the JS `undefined` that leaks out of
a failed hash lookup; `jsObject` is a non-type object flowing through an
unchecked cast. -/
inductive GType where
  | scalarT (s : ScalarDef)
  | enumT (e : GQLEnum)
  | interfaceRef (name : String)
  | objectRef (name : String)
  | inputRef (name : String)
  | listT (t : GType)
  | nonNullT (t : GType)
  | jsUndefined
  | jsObject
deriving DecidableEq

/-- `type instanceof GraphQLNonNull`. -/
def isNonNull : GType → Bool
  | .nonNullT _ => true
  | _ => false

/-- Display form of a type value (only used inside error messages). -/
def gtypeToString : GType → String
  | .scalarT s => s.name
  | .enumT e => e.name
  | .interfaceRef n => n
  | .objectRef n => n
  | .inputRef n => n
  | .listT t => "[" ++ gtypeToString t ++ "]"
  | .nonNullT t => gtypeToString t ++ "!"
  | .jsUndefined => "undefined"
  | .jsObject => "[object Object]"

/-- An enum object passed around by identity (`Map<Object, EnumInfo>` key). -/
structure EnumObject where
  id : Nat
  entries : Hash EnumVal := []
deriving DecidableEq

/-- `OutputType` / `InputType` from src/types.ts: a thunk returning a class, a
concrete GraphQL type value, a name string, or an (enum) object. -/
inductive TypeRef where
  | thunk (c : ClassRef)
  | nameRef (s : String)
  | enumObject (o : EnumObject)
  | direct (g : GType)
deriving DecidableEq

/-- `ArgumentInfo` from src/types.ts. -/
structure ArgumentInfo where
  type : TypeRef
  defaultValue : Option Nat := none
  description : Option String := none
deriving DecidableEq

/-- `FieldArguments` (also the second parameter shape of `list`). -/
structure FieldArguments where
  args : Option (Hash ArgumentInfo) := none
deriving DecidableEq

/-- `FieldInfo` from src/types.ts as it lives in the registry: records are
created empty by `getOrAddField` and filled attribute by attribute; the
boolean modifiers are absent (falsy) until a decorator sets them. -/
structure FieldInfo where
  type : Option TypeRef := none
  args : Option (Hash ArgumentInfo) := none
  resolver : Option Nat := none
  description : Option String := none
  list : Bool := false
  nonNull : Bool := false
  nonNullItems : Bool := false
deriving DecidableEq

/-- `ResolverArguments.returnType`: either an object carrying a `type` key
(a `FieldInfo` literal) or a bare type reference. -/
inductive RetType where
  | fieldLike (fi : FieldInfo)
  | plain (t : TypeRef)
deriving DecidableEq

/-- The `config` part of a `ResolverInfo` (src/types.ts). -/
structure OpConfig where
  description : Option String := none
  args : Option (Hash ArgumentInfo) := none
  resolve : Option Nat := none
  subscribe : Option Nat := none
  deprecationReason : Option String := none
deriving DecidableEq

/-- `ResolverInfo` from src/types.ts. -/
structure ResolverInfo where
  type : RetType
  config : OpConfig := {}
deriving DecidableEq

/-- One entry of a `TypeArguments.interfaces` thunk: a name string, a class,
or a concrete interface type value. -/
inductive IfaceEntry where
  | byName (s : String)
  | byClass (c : ClassRef)
  | direct (g : GType)
deriving DecidableEq

/-- Display form used when an interface entry is interpolated into the
`Interface ... not defined` message. -/
def ifaceEntryToString : IfaceEntry → String
  | .byName s => s
  | .byClass c => "class " ++ className c
  | .direct g => gtypeToString g

/-- The `kind` tag of a `TypeInfo`; `typ` stands for the source string
`'type'` (a Lean keyword). -/
inductive TKind where
  | interface
  | typ
  | input
  | scalar
deriving DecidableEq

/-- `TypeInfo` from src/types.ts: one registry record per declared class. -/
structure TypeInfo where
  name : String
  kind : Option TKind := none
  target : Option ClassRef := none
  scalar : Option ScalarDef := none
  description : Option String := none
  interfaces : Option (List IfaceEntry) := none
  resolveType : Option Nat := none
  isTypeOf : Option Nat := none
  fields : Hash FieldInfo := []
  queries : Hash ResolverInfo := []
  mutations : Hash ResolverInfo := []
  subscriptions : Hash ResolverInfo := []
deriving DecidableEq

/-- `EnumInfo` from src/types.ts; `target` is the identity token of the
decorated enum object. -/
structure EnumInfo where
  name : String
  description : Option String := none
  target : Nat
  values : Hash EnumValueInfo := []
deriving DecidableEq

/-- The registry state of a `SchemaBuilder` instance: `_types` and `_enums`. -/
structure SchemaBuilder where
  types : Hash TypeInfo := []
  enums : AMap Nat EnumInfo := []
deriving DecidableEq

/-- A fresh builder (`new SchemaBuilder()`). -/
def SchemaBuilder.empty : SchemaBuilder := {}

/-- `findByClass`: first registered record whose `target` is this class. -/
def SchemaBuilder.findByClass (b : SchemaBuilder) (target : ClassRef) : Option TypeInfo :=
  (b.types.map (·.2)).find? (fun t => decide (t.target = some target))

/-- `getOrAddType`: fetch the record for a name, creating an empty shell when
absent; returns the (possibly extended) registry with the record. -/
def SchemaBuilder.getOrAddType (b : SchemaBuilder) (name : String) : SchemaBuilder × TypeInfo :=
  match AMap.find b.types name with
  | some t => (b, t)
  | none =>
    let t : TypeInfo := { name := name }
    ({ b with types := AMap.set b.types name t }, t)

/-- `hasType`. -/
def SchemaBuilder.hasType (b : SchemaBuilder) (name : String) : Bool :=
  (AMap.find b.types name).isSome

/-- `hasEnum`. -/
def SchemaBuilder.hasEnum (b : SchemaBuilder) (o : EnumObject) : Bool :=
  (AMap.find b.enums o.id).isSome

/-- `getOrAddField` followed by assigning one attribute of the returned field
record: the shape every property decorator's body has. -/
def SchemaBuilder.setFieldAttr (b : SchemaBuilder) (cls prop : String)
    (f : FieldInfo → FieldInfo) : SchemaBuilder :=
  let p := b.getOrAddType cls
  let ty := p.2
  let fi := (AMap.find ty.fields prop).getD {}
  { p.1 with types := AMap.set p.1.types cls { ty with fields := AMap.set ty.fields prop (f fi) } }

/-- The `description(text)` property decorator. -/
def SchemaBuilder.description (b : SchemaBuilder) (text : String) (cls prop : String) : SchemaBuilder :=
  b.setFieldAttr cls prop (fun fi => { fi with description := some text })

/-- The `field(type, args?)` property decorator: captures the owning type
record, writes `type`, and writes `args` only when arguments were supplied and
the owning record is not an input. -/
def SchemaBuilder.field (b : SchemaBuilder) (t : TypeRef) (fargs : Option FieldArguments)
    (cls prop : String) : SchemaBuilder :=
  let p := b.getOrAddType cls
  let b1 := p.1.setFieldAttr cls prop (fun fi => { fi with type := some t })
  match fargs with
  | some a =>
    if p.2.kind ≠ some TKind.input then
      b1.setFieldAttr cls prop (fun fi => { fi with args := a.args })
    else b1
  | none => b1

/-- The `resolve(resolver)` property decorator. -/
def SchemaBuilder.resolve (b : SchemaBuilder) (r : Nat) (cls prop : String) : SchemaBuilder :=
  b.setFieldAttr cls prop (fun fi => { fi with resolver := some r })

/-- The `list(type, args?)` property decorator: writes `type`, sets `list`,
and writes `args` whenever arguments were supplied. -/
def SchemaBuilder.list (b : SchemaBuilder) (t : TypeRef) (largs : Option FieldArguments)
    (cls prop : String) : SchemaBuilder :=
  let b1 := b.setFieldAttr cls prop (fun fi => { fi with type := some t })
  let b2 := b1.setFieldAttr cls prop (fun fi => { fi with list := true })
  match largs with
  | some a => b2.setFieldAttr cls prop (fun fi => { fi with args := a.args })
  | none => b2

/-- The `nonNull()` property decorator. -/
def SchemaBuilder.nonNull (b : SchemaBuilder) (cls prop : String) : SchemaBuilder :=
  b.setFieldAttr cls prop (fun fi => { fi with nonNull := true })

/-- The `nonNullItems()` property decorator. -/
def SchemaBuilder.nonNullItems (b : SchemaBuilder) (cls prop : String) : SchemaBuilder :=
  b.setFieldAttr cls prop (fun fi => { fi with nonNullItems := true })

/-- `InterfaceArguments` from src/types.ts. -/
structure InterfaceArguments where
  description : Option String := none
  interfaces : Option (List IfaceEntry) := none
  resolveType : Option Nat := none
deriving DecidableEq

/-- `TypeArguments` from src/types.ts. -/
structure TypeArguments where
  description : Option String := none
  interfaces : Option (List IfaceEntry) := none
  isTypeOf : Option Nat := none
deriving DecidableEq

/-- `InputArguments` from src/types.ts. -/
structure InputArguments where
  description : Option String := none
deriving DecidableEq

/-- `ScalarArguments` from src/types.ts. -/
structure ScalarArguments where
  description : Option String := none
  serialize : Nat
  parseValue : Option Nat := none
  parseLiteral : Option Nat := none
deriving DecidableEq

/-- The `interface(args?)` class decorator. -/
def SchemaBuilder.interface (b : SchemaBuilder) (args : Option InterfaceArguments)
    (cls : ClassRef) : SchemaBuilder :=
  let p := b.getOrAddType (className cls)
  let ty := { p.2 with kind := some TKind.interface, target := some cls }
  let ty := match args with
    | some a => { ty with description := a.description, interfaces := a.interfaces,
                          resolveType := a.resolveType }
    | none => ty
  { p.1 with types := AMap.set p.1.types (className cls) ty }

/-- The `type(args?)` class decorator. -/
def SchemaBuilder.type (b : SchemaBuilder) (args : Option TypeArguments)
    (cls : ClassRef) : SchemaBuilder :=
  let p := b.getOrAddType (className cls)
  let ty := { p.2 with kind := some TKind.typ, target := some cls }
  let ty := match args with
    | some a => { ty with description := a.description, interfaces := a.interfaces,
                          isTypeOf := a.isTypeOf }
    | none => ty
  { p.1 with types := AMap.set p.1.types (className cls) ty }

/-- The `input(args?)` class decorator. -/
def SchemaBuilder.input (b : SchemaBuilder) (args : Option InputArguments)
    (cls : ClassRef) : SchemaBuilder :=
  let p := b.getOrAddType (className cls)
  let ty := { p.2 with kind := some TKind.input, target := some cls }
  let ty := match args with
    | some a => { ty with description := a.description }
    | none => ty
  { p.1 with types := AMap.set p.1.types (className cls) ty }

/-- The `scalar(args)` class decorator: also materializes the scalar value. -/
def SchemaBuilder.scalar (b : SchemaBuilder) (args : ScalarArguments)
    (cls : ClassRef) : SchemaBuilder :=
  let p := b.getOrAddType (className cls)
  let ty := { p.2 with
              kind := some TKind.scalar
              target := some cls
              scalar := some ({ name := className cls, description := args.description,
                                serialize := some args.serialize, parseValue := args.parseValue,
                                parseLiteral := args.parseLiteral } : ScalarDef) }
  { p.1 with types := AMap.set p.1.types (className cls) ty }

/-- `ResolverArguments` from src/types.ts. -/
structure ResolverArguments where
  returnType : RetType
  description : Option String := none
  args : Option (Hash ArgumentInfo) := none
deriving DecidableEq

/-- `SubscriptionArguments` from src/types.ts. -/
structure SubscriptionArguments where
  returnType : RetType
  description : Option String := none
  args : Option (Hash ArgumentInfo) := none
  subscribe : Nat
deriving DecidableEq

/-- The `query(args)` method decorator; `body` is the decorated static method
(`descriptor.value`). -/
def SchemaBuilder.query (b : SchemaBuilder) (args : ResolverArguments)
    (cls method : String) (body : Nat) : SchemaBuilder :=
  let p := b.getOrAddType cls
  let ty := p.2
  let ri : ResolverInfo :=
    { type := args.returnType
      config := { description := args.description, args := args.args,
                  resolve := some body } }
  { p.1 with types := AMap.set p.1.types cls { ty with queries := AMap.set ty.queries method ri } }

/-- The `mutation(args)` method decorator. -/
def SchemaBuilder.mutation (b : SchemaBuilder) (args : ResolverArguments)
    (cls method : String) (body : Nat) : SchemaBuilder :=
  let p := b.getOrAddType cls
  let ty := p.2
  let ri : ResolverInfo :=
    { type := args.returnType
      config := { description := args.description, args := args.args,
                  resolve := some body } }
  { p.1 with types := AMap.set p.1.types cls { ty with mutations := AMap.set ty.mutations method ri } }

/-- The `subscription(args)` method decorator. -/
def SchemaBuilder.subscription (b : SchemaBuilder) (args : SubscriptionArguments)
    (cls method : String) (body : Nat) : SchemaBuilder :=
  let p := b.getOrAddType cls
  let ty := p.2
  let ri : ResolverInfo :=
    { type := args.returnType
      config := { description := args.description, args := args.args,
                  resolve := some body, subscribe := some args.subscribe } }
  { p.1 with types := AMap.set p.1.types cls { ty with subscriptions := AMap.set ty.subscriptions method ri } }

/-- `EnumDecorationArguments` from src/types.ts; `name` is `Option` to cover a
missing (`undefined`) name at runtime. -/
structure EnumDecorationArguments where
  name : Option String
  description : Option String := none
  values : Option (Hash EnumValueInfo) := none
deriving DecidableEq

/-- The guard of `getOrAddEnum`: `!name || !name.trim().length`. -/
def invalidEnumName : Option String → Bool
  | none => true
  | some s => jsTrim s = ""

/-- Message of the name-guard throw in `getOrAddEnum`. -/
def invalidNameMsg (n : Option String) : String :=
  "Invalid name specified for enum \x27" ++ n.getD "undefined" ++ "\x27"

/-- Message of the `TypeError` JS raises when `reduce` (without an initial
value) is applied to the entries of an empty enum object. -/
def reduceEmptyMsg : String := "Reduce of empty array with no initial value"

/-- `Object.entries(_enum).map(...).reduce((p, c) => (\x7b...p, ...c\x7d))`:
seeds the value map with every underlying entry; JS throws on an empty
entry list because `reduce` has no initial value. -/
def baseValues : Hash EnumVal → Option (Hash EnumValueInfo)
  | [] => none
  | es => some (es.foldl (fun acc p => AMap.set acc p.1 { value := some p.2 }) [])

/-- `getOrAddEnum`: validates the name, returns the stored record when the
identity is known, otherwise creates a record seeded with all underlying
entries. The registry is returned alongside (unchanged on the error paths). -/
def SchemaBuilder.getOrAddEnum (b : SchemaBuilder) (o : EnumObject) (name : Option String) :
    (Except String EnumInfo) × SchemaBuilder :=
  if invalidEnumName name then (.error (invalidNameMsg name), b)
  else
    match AMap.find b.enums o.id with
    | some info => (.ok info, b)
    | none =>
      match baseValues o.entries with
      | none => (.error reduceEmptyMsg, b)
      | some vals =>
        let info : EnumInfo := { name := jsTrim (name.getD ""), target := o.id, values := vals }
        (.ok info, { b with enums := b.enums ++ [(o.id, info)] })

/-- The per-value update loop of `decorateEnum`: for each supplied name, fetch
or create the entry and overwrite its `description` and `deprecationReason`
with the supplied (possibly absent) sub-fields. The supplied `value`
sub-field is ignored by the source. -/
def updEnumValues (vals : Hash EnumValueInfo) : Hash EnumValueInfo → Hash EnumValueInfo
  | [] => vals
  | p :: rest =>
    let cur := (AMap.find vals p.1).getD {}
    updEnumValues
      (AMap.set vals p.1
        { cur with description := p.2.description, deprecationReason := p.2.deprecationReason })
      rest

/-- `decorateEnum(object, args)`: upserts the enum record, unconditionally
overwrites its `description`, and applies the per-value updates. -/
def SchemaBuilder.decorateEnum (b : SchemaBuilder) (o : EnumObject)
    (args : EnumDecorationArguments) : (Except String Unit) × SchemaBuilder :=
  match b.getOrAddEnum o args.name with
  | (.error e, b1) => (.error e, b1)
  | (.ok info, b1) =>
    let info := { info with description := args.description }
    let info := match args.values with
      | some vs => { info with values := updEnumValues info.values vs }
      | none => info
    (.ok (), { b1 with enums := AMap.set b1.enums o.id info })

/-- Output of argument conversion: `\x7b ...arg, type: convertInputType(arg.type) \x7d`. -/
structure GQLArgOut where
  type : GType
  defaultValue : Option Nat := none
  description : Option String := none
deriving DecidableEq

/-- One compiled field of an interface/object/input type. -/
structure GQLFieldOut where
  name : String
  type : GType
  args : Option (Hash GQLArgOut) := none
  resolve : Option Nat := none
  description : Option String := none
deriving DecidableEq

/-- One compiled root-operation field (`\x7b ...value.config, type, args \x7d`). -/
structure OpFieldOut where
  type : GType
  args : Hash GQLArgOut := []
  description : Option String := none
  resolve : Option Nat := none
  subscribe : Option Nat := none
  deprecationReason : Option String := none
deriving DecidableEq

/-- A compiled root object (`Query` / `Mutation` / `Subscriptions`). -/
structure RootOut where
  name : String
  fields : Hash OpFieldOut := []
deriving DecidableEq

/-- A compiled `GraphQLInterfaceType`. -/
structure GQLInterfaceOut where
  name : String
  description : Option String := none
  resolveType : Option Nat := none
  fields : Hash GQLFieldOut := []
deriving DecidableEq

/-- A compiled `GraphQLObjectType`. -/
structure GQLObjectOut where
  name : String
  description : Option String := none
  isTypeOf : Option Nat := none
  fields : Hash GQLFieldOut := []
  interfaces : List GType := []
deriving DecidableEq

/-- A compiled `GraphQLInputObjectType`. -/
structure GQLInputOut where
  name : String
  description : Option String := none
  fields : Hash GQLFieldOut := []
deriving DecidableEq

/-- Everything `build()` has materialized when it returns: the local
`enums`/`scalars`/`interfaces`/`objects`/`inputs` hashes and the root types of
the returned `GraphQLSchema` (field thunks forced, as schema construction
does). -/
structure BuildOutput where
  enums : Hash GQLEnum := []
  scalars : Hash ScalarDef := []
  interfaces : Hash GQLInterfaceOut := []
  objects : Hash GQLObjectOut := []
  inputs : Hash GQLInputOut := []
  query : RootOut
  mutation : Option RootOut := none
  subscription : Option RootOut := none
deriving DecidableEq

/-- Enum materialization (`build()` step 1): every registered `EnumInfo`
becomes a `GraphQLEnumType` carrying all of its `values` entries. -/
def materializeEnumInfo (e : EnumInfo) : GQLEnum :=
  { name := e.name
    description := e.description
    values := e.values.foldl
      (fun acc p => AMap.set acc p.1
        { value := p.2.value, description := p.2.description,
          deprecationReason := p.2.deprecationReason }) [] }

/-- The `enums` hash local to `build()`, keyed by enum name. -/
def materializeEnums (b : SchemaBuilder) : Hash GQLEnum :=
  b.enums.foldl (fun acc p => AMap.set acc p.2.name (materializeEnumInfo p.2)) []

/-- Names of registry records with a given `kind`. -/
def kindNames (b : SchemaBuilder) (k : TKind) : List String :=
  b.types.filterMap (fun p => if p.2.kind = some k then some p.1 else none)

/-- The name environment visible to the reference resolvers once `build()` has
populated its local hashes: materialized enums, the identity-to-name map of
registered enums, the names present in each kind-specific hash, and every
registered type name (for `hasType`). -/
structure BuildEnv where
  enums : Hash GQLEnum := []
  enumIds : AMap Nat String := []
  interfaceNames : List String := []
  scalars : Hash ScalarDef := []
  objectNames : List String := []
  inputNames : List String := []
  typeNames : List String := []
deriving DecidableEq

/-- The environment `build()` derives from the registry: the `scalars` hash
holds only records whose materialized scalar value exists (an absent value is
`undefined`, hence falsy on lookup). -/
def envOf (b : SchemaBuilder) : BuildEnv :=
  { enums := materializeEnums b
    enumIds := b.enums.map (fun p => (p.1, p.2.name))
    interfaceNames := kindNames b TKind.interface
    scalars := b.types.filterMap (fun p =>
      match p.2.kind, p.2.scalar with
      | some TKind.scalar, some s => some (p.1, s)
      | _, _ => none)
    objectNames := kindNames b TKind.typ
    inputNames := kindNames b TKind.input
    typeNames := b.types.map (·.1) }

/-- Message of the unresolvable-type throw in `convertOutputType`. -/
def typeNotDefinedMsg (n : String) : String :=
  "Type \x27" ++ n ++ "\x27 not defined"

/-- Message of the unresolvable-interface throw in the interfaces thunk. -/
def ifaceNotDefinedMsg (s : String) : String :=
  "Interface \x27" ++ s ++ "\x27 not defined"

/-- Name-based resolution inside `convertOutputType`: materialized enums
first, then interfaces, then scalars; otherwise the registry must know the
name (else the `Type ... not defined` throw) and the object hash is read,
yielding `undefined` when the record is not an object type. -/
def resolveName (env : BuildEnv) (n : String) : Except String GType :=
  match AMap.find env.enums n with
  | some e => .ok (.enumT e)
  | none =>
    if n ∈ env.interfaceNames then .ok (.interfaceRef n)
    else
      match AMap.find env.scalars n with
      | some s => .ok (.scalarT s)
      | none =>
        if n ∈ env.typeNames then
          .ok (if n ∈ env.objectNames then .objectRef n else .jsUndefined)
        else .error (typeNotDefinedMsg n)

/-- `convertOutputType`: a thunk contributes its class name, a string is used
directly, a registered enum object resolves through the enum hash, and any
other value is returned unchanged (an unchecked cast in the source). -/
def convertOutputType (env : BuildEnv) : TypeRef → Except String GType
  | .thunk c => resolveName env (className c)
  | .nameRef s => resolveName env s
  | .enumObject o =>
    match AMap.find env.enumIds o.id with
    | some ename =>
      match AMap.find env.enums ename with
      | some e => .ok (.enumT e)
      | none => .ok .jsUndefined
    | none => .ok .jsObject
  | .direct g => .ok g

/-- Name-based resolution inside `convertInputType`: enums, then scalars,
then the input hash; never throws (an unknown name yields `undefined`). -/
def inputNameResolve (env : BuildEnv) (n : String) : GType :=
  match AMap.find env.enums n with
  | some e => .enumT e
  | none =>
    match AMap.find env.scalars n with
    | some s => .scalarT s
    | none => if n ∈ env.inputNames then .inputRef n else .jsUndefined

/-- `convertInputType` (total: the source function has no throw). -/
def convertInputType (env : BuildEnv) : TypeRef → GType
  | .thunk c => inputNameResolve env (className c)
  | .nameRef s => inputNameResolve env s
  | .enumObject o =>
    match AMap.find env.enumIds o.id with
    | some ename => inputNameResolve env ename
    | none => .jsObject
  | .direct g => g

/-- `convertFieldInfoToType`: when the value carries a `type` key, resolve it
and wrap it — non-null items first, then list, then outer non-null unless the
type is already non-null; otherwise hand the value to the converter (for a
registry record without a set `type` this passes a non-type object through). -/
def convertFieldInfoToType (conv : TypeRef → Except String GType) : RetType → Except String GType
  | .fieldLike fi =>
    match fi.type with
    | some t =>
      match conv t with
      | .error e => .error e
      | .ok base =>
        let t1 := if fi.nonNullItems then GType.nonNullT base else base
        let t2 := if fi.list then GType.listT t1 else t1
        .ok (if fi.nonNull && !(isNonNull t2) then GType.nonNullT t2 else t2)
    | none => .ok .jsObject
  | .plain t => conv t

/-- `convertArguments`: each argument's type is resolved with input-type
resolution, the rest of the argument record is spread through. -/
def convertArguments (env : BuildEnv) (args : Hash ArgumentInfo) : Hash GQLArgOut :=
  args.foldl
    (fun acc p => AMap.set acc p.1
      { type := convertInputType env p.2.type
        defaultValue := p.2.defaultValue
        description := p.2.description }) []

/-- The ancestor records contributing fields to a type, root first: the
reversed inheritance tree, with unregistered ancestors filtered out. -/
def buildParents (b : SchemaBuilder) (target : ClassRef) : List TypeInfo :=
  ((getInheritanceTree target).reverse).filterMap (fun c => b.findByClass c)

/-- The merged field map of `getFields`: the ancestors' field maps, spread
root-to-self so that a more-derived declaration overrides an ancestor's. -/
def mergedFields (b : SchemaBuilder) (target : ClassRef) : Hash FieldInfo :=
  (buildParents b target).foldl (fun acc p => hashMerge acc p.fields) []

/-- One assembled field: resolved type, converted arguments when present, the
declared resolver (dropped for input kinds) and the description. -/
def materializeFieldEntry (env : BuildEnv) (conv : TypeRef → Except String GType)
    (isInput : Bool) (p : String × FieldInfo) : Except String (String × GQLFieldOut) :=
  match convertFieldInfoToType conv (.fieldLike p.2) with
  | .error e => .error e
  | .ok t =>
    .ok (p.1,
      { name := p.1
        type := t
        args := match p.2.args with
          | some a => some (convertArguments env a)
          | none => none
        resolve := if isInput then none else p.2.resolver
        description := p.2.description })

/-- Assemble every merged field entry in order. -/
def mapFieldEntries (env : BuildEnv) (conv : TypeRef → Except String GType)
    (isInput : Bool) : Hash FieldInfo → Except String (List (String × GQLFieldOut))
  | [] => .ok []
  | p :: rest =>
    match materializeFieldEntry env conv isInput p with
    | .error e => .error e
    | .ok q =>
      match mapFieldEntries env conv isInput rest with
      | .error e => .error e
      | .ok qs => .ok (q :: qs)

/-- Message of the TypeError JS raises when `getInheritanceTree` receives an
`undefined` target (a kinded record can only lack a target in a hand-built
registry; the decorator API always sets it). -/
def undefinedTargetMsg : String := "TypeError: Cannot convert undefined to object"

/-- The forced `fields` thunk of `getFields`: walk the inheritance chain,
merge the ancestors' field maps, assemble each field, and reduce the result
into a keyed map. -/
def getFieldsOf (b : SchemaBuilder) (env : BuildEnv) (info : TypeInfo)
    (conv : TypeRef → Except String GType) (isInput : Bool) :
    Except String (Hash GQLFieldOut) :=
  match info.target with
  | none => .error undefinedTargetMsg
  | some target =>
    match mapFieldEntries env conv isInput (mergedFields b target) with
    | .error e => .error e
    | .ok l => .ok (l.foldl (fun acc q => AMap.set acc q.1 q.2) [])

/-- One entry of the interfaces thunk of an object type: a string or a class
resolves through the interface hash; anything else (including a concrete
interface value) hits the `Interface ... not defined` throw. -/
def resolveIfaceEntry (env : BuildEnv) : IfaceEntry → Except String GType
  | .byName s =>
    if s ∈ env.interfaceNames then .ok (.interfaceRef s)
    else .error (ifaceNotDefinedMsg s)
  | .byClass c =>
    if className c ∈ env.interfaceNames then .ok (.interfaceRef (className c))
    else .error (ifaceNotDefinedMsg (ifaceEntryToString (.byClass c)))
  | .direct g => .error (ifaceNotDefinedMsg (ifaceEntryToString (.direct g)))

/-- The forced interfaces thunk of an object type. -/
def resolveIfaceList (env : BuildEnv) : List IfaceEntry → Except String (List GType)
  | [] => .ok []
  | e :: rest =>
    match resolveIfaceEntry env e with
    | .error m => .error m
    | .ok g =>
      match resolveIfaceList env rest with
      | .error m => .error m
      | .ok gs => .ok (g :: gs)

/-- Interface materialization over the registry, in insertion order. -/
def materializeInterfaces (b : SchemaBuilder) (env : BuildEnv)
    (acc : Hash GQLInterfaceOut) : Hash TypeInfo → Except String (Hash GQLInterfaceOut)
  | [] => .ok acc
  | p :: rest =>
    match p.2.kind with
    | some TKind.interface =>
      match getFieldsOf b env p.2 (convertOutputType env) false with
      | .error e => .error e
      | .ok fs =>
        materializeInterfaces b env
          (AMap.set acc p.1
            { name := p.1, description := p.2.description,
              resolveType := p.2.resolveType, fields := fs }) rest
    | _ => materializeInterfaces b env acc rest

/-- Object-type materialization over the registry, in insertion order; also
forces the lazily-resolved interfaces list. -/
def materializeObjects (b : SchemaBuilder) (env : BuildEnv)
    (acc : Hash GQLObjectOut) : Hash TypeInfo → Except String (Hash GQLObjectOut)
  | [] => .ok acc
  | p :: rest =>
    match p.2.kind with
    | some TKind.typ =>
      match getFieldsOf b env p.2 (convertOutputType env) false with
      | .error e => .error e
      | .ok fs =>
        match (match p.2.interfaces with
               | some entries => resolveIfaceList env entries
               | none => .ok []) with
        | .error e => .error e
        | .ok ifs =>
          materializeObjects b env
            (AMap.set acc p.1
              { name := p.1, description := p.2.description,
                isTypeOf := p.2.isTypeOf, fields := fs, interfaces := ifs }) rest
    | _ => materializeObjects b env acc rest

/-- Input-type materialization over the registry, in insertion order; fields
use input-type resolution and never carry a resolver. -/
def materializeInputs (b : SchemaBuilder) (env : BuildEnv)
    (acc : Hash GQLInputOut) : Hash TypeInfo → Except String (Hash GQLInputOut)
  | [] => .ok acc
  | p :: rest =>
    match p.2.kind with
    | some TKind.input =>
      match getFieldsOf b env p.2 (fun t => .ok (convertInputType env t)) true with
      | .error e => .error e
      | .ok fs =>
        materializeInputs b env
          (AMap.set acc p.1
            { name := p.1, description := p.2.description, fields := fs }) rest
    | _ => materializeInputs b env acc rest

/-- One root-operation field: `\x7b ...value.config, type, args \x7d` with the
return type resolved through output-type resolution and missing arguments
defaulting to an empty map. -/
def materializeOp (env : BuildEnv) (ri : ResolverInfo) : Except String OpFieldOut :=
  match convertFieldInfoToType (convertOutputType env) ri.type with
  | .error e => .error e
  | .ok t =>
    .ok { description := ri.config.description
          resolve := ri.config.resolve
          subscribe := ri.config.subscribe
          deprecationReason := ri.config.deprecationReason
          type := t
          args := match ri.config.args with
            | some a => convertArguments env a
            | none => [] }

/-- Flatten one operation map into the global accumulator, keyed by operation
name. -/
def convertOps (env : BuildEnv) (acc : Hash OpFieldOut) :
    Hash ResolverInfo → Except String (Hash OpFieldOut)
  | [] => .ok acc
  | p :: rest =>
    match materializeOp env p.2 with
    | .error e => .error e
    | .ok f => convertOps env (AMap.set acc p.1 f) rest

/-- Flatten every registry record's queries, mutations and subscriptions (in
registry order, in that per-record order) into the three global maps. -/
def collectRoots (env : BuildEnv)
    (acc : Hash OpFieldOut × Hash OpFieldOut × Hash OpFieldOut) :
    Hash TypeInfo → Except String (Hash OpFieldOut × Hash OpFieldOut × Hash OpFieldOut)
  | [] => .ok acc
  | p :: rest =>
    match convertOps env acc.1 p.2.queries with
    | .error e => .error e
    | .ok qs =>
      match convertOps env acc.2.1 p.2.mutations with
      | .error e => .error e
      | .ok ms =>
        match convertOps env acc.2.2 p.2.subscriptions with
        | .error e => .error e
        | .ok ss => collectRoots env (qs, ms, ss) rest

/-- The compilation performed by `build()`: materialize enums, derive the name
environment, convert the root operations (these run eagerly, before schema
construction), then force every registered type's field and interface thunks
(schema construction does this), and assemble the schema: a `Query` root
always, a `Mutation`/`Subscriptions` root only when the corresponding
operation map is non-empty. -/
def buildParts (b : SchemaBuilder) : Except String BuildOutput :=
  let env := envOf b
  match collectRoots env ([], [], []) b.types with
  | .error e => .error e
  | .ok roots =>
    match materializeInterfaces b env [] b.types with
    | .error e => .error e
    | .ok ifaces =>
      match materializeObjects b env [] b.types with
      | .error e => .error e
      | .ok objs =>
        match materializeInputs b env [] b.types with
        | .error e => .error e
        | .ok inputs =>
          .ok { enums := env.enums
                scalars := env.scalars
                interfaces := ifaces
                objects := objs
                inputs := inputs
                query := { name := "Query", fields := roots.1 }
                mutation := match roots.2.1 with
                  | [] => none
                  | ms => some { name := "Mutation", fields := ms }
                subscription := match roots.2.2 with
                  | [] => none
                  | ss => some { name := "Subscriptions", fields := ss } }

/-- The `build()` method: it reads `_types` and `_enums` and never writes
them, so its translation threads the receiver's registry through unchanged
and returns it next to the compiled schema. -/
def SchemaBuilder.build (b : SchemaBuilder) : (Except String BuildOutput) × SchemaBuilder :=
  (buildParts b, b)

/-- The modifier-wrapping order as the specification states it: wrap the item
type in non-null first when `nonNullItems` is set, then wrap in a list when
`list` is set, then wrap the outer type in non-null when `nonNull` is set,
unless it is already non-null. -/
def specModifierWrap (nnItems isList nn : Bool) (t : GType) : GType :=
  let item := if nnItems then GType.nonNullT t else t
  let outer := if isList then GType.listT item else item
  if nn && !(isNonNull outer) then GType.nonNullT outer else outer

/-- The kind read by the `field` decorator before it conditionally writes
`args`: the owning record's `kind` at application time. -/
def readKind (b : SchemaBuilder) (cls : String) : Option TKind :=
  ((b.getOrAddType cls).2).kind

/-- One application of a property annotation to a (class, property) target,
with the arguments the caller passed when producing the decorator. -/
inductive Ann where
  | description (text : String)
  | field (t : TypeRef) (fargs : Option FieldArguments)
  | resolve (r : Nat)
  | list (t : TypeRef) (largs : Option FieldArguments)
  | nonNull
  | nonNullItems
deriving DecidableEq

/-- Which of the six property decorators an annotation is. -/
def Ann.tag : Ann → Nat
  | .description _ => 0
  | .field _ _ => 1
  | .resolve _ => 2
  | .list _ _ => 3
  | .nonNull => 4
  | .nonNullItems => 5

/-- The two annotations that write the field record's `type` attribute. -/
def Ann.setsType : Ann → Bool
  | .field _ _ => true
  | .list _ _ => true
  | _ => false

/-- Apply one annotation to a property, dispatching to the corresponding
`SchemaBuilder` decorator. -/
def applyAnn (b : SchemaBuilder) (cls prop : String) : Ann → SchemaBuilder
  | .description s => b.description s cls prop
  | .field t a => b.field t a cls prop
  | .resolve r => b.resolve r cls prop
  | .list t a => b.list t a cls prop
  | .nonNull => b.nonNull cls prop
  | .nonNullItems => b.nonNullItems cls prop

/-- The pure field-record update an annotation performs, given the owning
record's kind at application time. -/
def annUpd (k : Option TKind) : Ann → FieldInfo → FieldInfo
  | .description s => fun fi => { fi with description := some s }
  | .resolve r => fun fi => { fi with resolver := some r }
  | .nonNull => fun fi => { fi with nonNull := true }
  | .nonNullItems => fun fi => { fi with nonNullItems := true }
  | .field t a => fun fi =>
    match a with
    | some a' =>
      if k ≠ some TKind.input then { fi with type := some t, args := a'.args }
      else { fi with type := some t }
    | none => { fi with type := some t }
  | .list t a => fun fi =>
    match a with
    | some a' => { fi with type := some t, list := true, args := a'.args }
    | none => { fi with type := some t, list := true }

/-- A fallback output value (only used to give total projections of a
successful build a value on the error branch). -/
def defaultBuildOut : BuildOutput :=
  { query := { name := "", fields := [] } }

/-- The value names exposed by the enum type a successful `build()`
materializes under a given enum name. -/
def buildEnumValueNames (b : SchemaBuilder) (n : String) : Option (List String) :=
  match (SchemaBuilder.build b).1 with
  | .ok out => (AMap.find out.enums n).map (fun e => e.values.map Prod.fst)
  | .error _ => none

/-- The stored description of the enum record registered under an identity. -/
def enumDescAt (b : SchemaBuilder) (id : Nat) : Option (Option String) :=
  (AMap.find b.enums id).map (·.description)

/-- The enum record stored for an identity after a `decorateEnum` call. -/
def enumInfoAfter (b : SchemaBuilder) (o : EnumObject) (args : EnumDecorationArguments) :
    Option EnumInfo :=
  AMap.find (b.decorateEnum o args).2.enums o.id

/-- Example: an underlying enum object with four values. -/
def exEnum4 : EnumObject :=
  { id := 0
    entries := [("a", .str "a"), ("b", .str "b"), ("c", .str "c"), ("d", .str "d")] }

/-- Example: a decoration call whitelisting only two of the four values. -/
def exEnum4Args : EnumDecorationArguments :=
  { name := some "E"
    description := some "Letters"
    values := some [("a", { description := some "A" }), ("b", { description := some "B" })] }

/-- Example: the registry after decorating the four-value enum with the
two-value whitelist. -/
def exEnum4Builder : SchemaBuilder :=
  (SchemaBuilder.empty.decorateEnum exEnum4 exEnum4Args).2

/-- Example: the `GraphQLString` scalar value. -/
def gqlString : GType := .scalarT { name := "String" }

/-- Example: a field record marked `list`, `nonNull` and `nonNullItems` with a
directly supplied scalar type. -/
def exListField : FieldInfo :=
  { type := some (.direct gqlString), list := true, nonNull := true, nonNullItems := true }

/-- Example: a registry holding one interface named `I` and nothing else. -/
def exIfaceBuilder : SchemaBuilder :=
  SchemaBuilder.empty.interface none ["I"]

/-- Example classes: `A` with no superclass and `B extends A`. -/
def exClassA : ClassRef := ["A"]

/-- Example class `B extends A`. -/
def exClassB : ClassRef := ["B", "A"]

/-- Example: both `A` and `B` declared as types, both declaring a field `x`
(with different descriptions), `A` also declaring `y` and `B` declaring `z`. -/
def exInheritBuilder : SchemaBuilder :=
  (((((SchemaBuilder.empty.type none exClassA).description "from A" "A" "x").description
    "only A" "A" "y").type none exClassB).description "from B" "B" "x").description
    "only B" "B" "z"

/-- Example: the compiled output of an empty registry. -/
def emptyBuildOut : BuildOutput :=
  match (SchemaBuilder.build SchemaBuilder.empty).1 with
  | .ok o => o
  | .error _ => defaultBuildOut

/-- Example: a registry with exactly one mutation and one subscription. -/
def exOpsBuilder : SchemaBuilder :=
  (SchemaBuilder.empty.mutation
    { returnType := .plain (.direct (.scalarT { name := "Boolean" })) } "M" "doIt" 7).subscription
    { returnType := .plain (.direct (.scalarT { name := "Boolean" })), subscribe := 9 } "M" "onIt" 8

/-- Example: the compiled output of the one-mutation registry. -/
def exOpsBuildOut : BuildOutput :=
  match (SchemaBuilder.build exOpsBuilder).1 with
  | .ok o => o
  | .error _ => defaultBuildOut

/-- Example: an enum object with a single entry, used by the enum-registration
examples. -/
def exEnum1 : EnumObject := { id := 0, entries := [("a", .str "x")] }

/-- Example: the registry after decorating `exEnum1` with a description. -/
def exEnum1Builder : SchemaBuilder :=
  (SchemaBuilder.empty.decorateEnum exEnum1 { name := some "E", description := some "d" }).2

/-- Example: the previous registry after a second `decorateEnum` call that
supplies no description. -/
def exEnum1Builder2 : SchemaBuilder :=
  (exEnum1Builder.decorateEnum exEnum1 { name := some "E" }).2

/-- Example: the enum record stored for `exEnum1` after its first
decoration. -/
def exEnum1Info : EnumInfo :=
  match AMap.find exEnum1Builder.enums 0 with
  | some i => i
  | none => { name := "", target := 0 }

/-- Example: a second decoration call for `exEnum1` that supplies a new
description and patches one value. -/
def exWitnessArgs : EnumDecorationArguments :=
  { name := some "E"
    description := some "d2"
    values := some [("a", { description := some "A2" })] }

theorem AMap.find_set_self {κ α : Type} [DecidableEq κ] (h : AMap κ α) (k : κ) (v : α) :
    AMap.find (AMap.set h k v) k = some v := by
  induction h with
  | nil => simp [AMap.set, AMap.find]
  | cons p rest ih =>
    by_cases hp : p.1 = k
    · simp [AMap.set, hp, AMap.find]
    · simp [AMap.set, hp, AMap.find, ih]

theorem AMap.find_set_ne {κ α : Type} [DecidableEq κ] (h : AMap κ α) (k k' : κ) (v : α)
    (hne : k' ≠ k) : AMap.find (AMap.set h k v) k' = AMap.find h k' := by
  have hne' : k ≠ k' := Ne.symm hne
  induction h with
  | nil => simp [AMap.set, AMap.find, hne']
  | cons p rest ih =>
    by_cases hp : p.1 = k
    · subst hp
      simp [AMap.set, AMap.find, hne']
    · simp [AMap.set, hp, AMap.find, ih]

theorem AMap.set_set {κ α : Type} [DecidableEq κ] (h : AMap κ α) (k : κ) (v w : α) :
    AMap.set (AMap.set h k v) k w = AMap.set h k w := by
  induction h with
  | nil => simp [AMap.set]
  | cons p rest ih =>
    by_cases hp : p.1 = k
    · simp [AMap.set, hp]
    · simp [AMap.set, hp, ih]

theorem AMap.find_eq_none_of_not_mem {κ α : Type} [DecidableEq κ] (h : AMap κ α) (k : κ)
    (hk : k ∉ h.map Prod.fst) : AMap.find h k = none := by
  induction h with
  | nil => simp [AMap.find]
  | cons p rest ih =>
    simp only [List.map_cons, List.mem_cons] at hk
    push_neg at hk
    simp [AMap.find, Ne.symm hk.1, ih hk.2]

theorem AMap.keys_set {κ α : Type} [DecidableEq κ] (h : AMap κ α) (k : κ) (v : α) :
    (AMap.set h k v).map Prod.fst
      = if k ∈ h.map Prod.fst then h.map Prod.fst else h.map Prod.fst ++ [k] := by
  induction h with
  | nil => simp [AMap.set]
  | cons p rest ih =>
    by_cases hp : p.1 = k
    · simp [AMap.set, hp]
    · have hp' : k ≠ p.1 := Ne.symm hp
      simp only [AMap.set, hp, if_false, List.map_cons, ih]
      by_cases hm : k ∈ rest.map Prod.fst
      · simp [hm, hp']
      · simp [hm, hp']

theorem AMap.nodup_keys_set {κ α : Type} [DecidableEq κ] (h : AMap κ α) (k : κ) (v : α)
    (hnd : (h.map Prod.fst).Nodup) : ((AMap.set h k v).map Prod.fst).Nodup := by
  rw [AMap.keys_set]
  by_cases hm : k ∈ h.map Prod.fst
  · simpa [hm] using hnd
  · simp only [hm, if_false]
    refine List.Nodup.append hnd (List.nodup_singleton k) ?_
    intro x hx hx'
    simp only [List.mem_singleton] at hx'
    exact hm (hx' ▸ hx)

theorem firstHit_append {α β : Type} (f : α → Option β) (l1 l2 : List α) :
    firstHit f (l1 ++ l2)
      = match firstHit f l1 with
        | some b => some b
        | none => firstHit f l2 := by
  induction l1 with
  | nil => simp [firstHit]
  | cons a l ih =>
    simp only [List.cons_append, firstHit]
    cases f a with
    | some b => simp
    | none => simpa using ih

theorem find_hashMerge {α : Type} (p c : Hash α) (k : String)
    (hnd : (c.map Prod.fst).Nodup) :
    AMap.find (hashMerge p c) k
      = match AMap.find c k with
        | some v => some v
        | none => AMap.find p k := by
  induction c generalizing p with
  | nil => simp [hashMerge, AMap.find]
  | cons q rest ih =>
    simp only [List.map_cons, List.nodup_cons] at hnd
    have step : hashMerge p (q :: rest) = hashMerge (AMap.set p q.1 q.2) rest := by
      simp [hashMerge]
    rw [step, ih _ hnd.2]
    by_cases hq : q.1 = k
    · subst hq
      have : AMap.find rest q.1 = none :=
        AMap.find_eq_none_of_not_mem _ _ hnd.1
      simp [this, AMap.find, AMap.find_set_self]
    · have hq' : k ≠ q.1 := Ne.symm hq
      simp [AMap.find, hq, AMap.find_set_ne _ _ _ _ hq']

theorem nodup_keys_hashMerge {α : Type} (p c : Hash α)
    (hnd : (p.map Prod.fst).Nodup) : ((hashMerge p c).map Prod.fst).Nodup := by
  induction c generalizing p with
  | nil => simpa [hashMerge] using hnd
  | cons q rest ih =>
    have step : hashMerge p (q :: rest) = hashMerge (AMap.set p q.1 q.2) rest := by
      simp [hashMerge]
    rw [step]
    exact ih _ (AMap.nodup_keys_set _ _ _ hnd)

theorem find_foldl_merge (ps : List TypeInfo) (h0 : Hash FieldInfo) (k : String)
    (hnd : ∀ p ∈ ps, (p.fields.map Prod.fst).Nodup) :
    AMap.find (ps.foldl (fun acc p => hashMerge acc p.fields) h0) k
      = match firstHit (fun p => AMap.find p.fields k) ps.reverse with
        | some v => some v
        | none => AMap.find h0 k := by
  induction ps generalizing h0 with
  | nil => simp [firstHit]
  | cons q rest ih =>
    have hq := hnd q (by simp)
    have hrest : ∀ p ∈ rest, (p.fields.map Prod.fst).Nodup := fun p hp => hnd p (by simp [hp])
    simp only [List.foldl_cons, List.reverse_cons]
    rw [ih _ hrest, firstHit_append]
    cases hfh : firstHit (fun p => AMap.find p.fields k) rest.reverse with
    | some v => simp
    | none =>
      simp only [firstHit]
      rw [find_hashMerge _ _ _ hq]
      cases AMap.find q.fields k with
      | some v => simp
      | none => simp

theorem nodup_keys_foldl_merge (ps : List TypeInfo) (h0 : Hash FieldInfo)
    (hnd : (h0.map Prod.fst).Nodup) :
    (((ps.foldl (fun acc p => hashMerge acc p.fields) h0)).map Prod.fst).Nodup := by
  induction ps generalizing h0 with
  | nil => simpa using hnd
  | cons q rest ih =>
    simp only [List.foldl_cons]
    exact ih _ (nodup_keys_hashMerge _ _ hnd)

theorem filterMap_rev {α β : Type} (f : α → Option β) (l : List α) :
    List.filterMap f l.reverse = (List.filterMap f l).reverse := by
  induction l with
  | nil => simp
  | cons a l ih =>
    simp only [List.reverse_cons, List.filterMap_append, ih, List.filterMap_cons]
    cases f a with
    | none => simp
    | some b => simp

theorem setFieldAttr_ensure (b : SchemaBuilder) (cls prop : String) (f : FieldInfo → FieldInfo) :
    ((b.getOrAddType cls).1).setFieldAttr cls prop f = b.setFieldAttr cls prop f := by
  simp only [SchemaBuilder.setFieldAttr, SchemaBuilder.getOrAddType]
  cases hf : AMap.find b.types cls with
  | some ty => simp [hf]
  | none => simp [hf, AMap.find_set_self, AMap.set_set]

theorem setFieldAttr_twice (b : SchemaBuilder) (cls prop : String) (f g : FieldInfo → FieldInfo) :
    (b.setFieldAttr cls prop f).setFieldAttr cls prop g
      = b.setFieldAttr cls prop (fun fi => g (f fi)) := by
  simp only [SchemaBuilder.setFieldAttr, SchemaBuilder.getOrAddType]
  cases hf : AMap.find b.types cls with
  | some ty => simp [hf, AMap.find_set_self, AMap.set_set, AMap.find]
  | none => simp [hf, AMap.find_set_self, AMap.set_set, AMap.find]

theorem setFieldAttr_congr (b : SchemaBuilder) (cls prop : String)
    (f g : FieldInfo → FieldInfo) (h : ∀ fi, f fi = g fi) :
    b.setFieldAttr cls prop f = b.setFieldAttr cls prop g := by
  rw [funext h]

theorem readKind_setFieldAttr (b : SchemaBuilder) (cls prop : String) (f : FieldInfo → FieldInfo) :
    readKind (b.setFieldAttr cls prop f) cls = readKind b cls := by
  simp only [readKind, SchemaBuilder.setFieldAttr, SchemaBuilder.getOrAddType]
  cases hf : AMap.find b.types cls with
  | some ty => simp [hf, AMap.find_set_self]
  | none => simp [hf, AMap.find_set_self]

theorem applyAnn_norm (b : SchemaBuilder) (cls prop : String) (a : Ann) :
    applyAnn b cls prop a = b.setFieldAttr cls prop (annUpd (readKind b cls) a) := by
  cases a with
  | description s => rfl
  | resolve r => rfl
  | nonNull => rfl
  | nonNullItems => rfl
  | field t fa =>
    cases fa with
    | none =>
      show SchemaBuilder.field b t none cls prop = _
      simp only [SchemaBuilder.field, setFieldAttr_ensure]
      exact setFieldAttr_congr _ _ _ _ _ (fun fi => rfl)
    | some a' =>
      show SchemaBuilder.field b t (some a') cls prop = _
      simp only [SchemaBuilder.field, setFieldAttr_ensure]
      by_cases hk : (b.getOrAddType cls).2.kind ≠ some TKind.input
      · rw [if_pos hk, setFieldAttr_twice]
        refine setFieldAttr_congr _ _ _ _ _ (fun fi => ?_)
        simp [annUpd, readKind, hk]
      · rw [if_neg hk]
        refine setFieldAttr_congr _ _ _ _ _ (fun fi => ?_)
        simp [annUpd, readKind, hk]
  | list t la =>
    cases la with
    | none =>
      show SchemaBuilder.list b t none cls prop = _
      simp only [SchemaBuilder.list, setFieldAttr_twice]
      exact setFieldAttr_congr _ _ _ _ _ (fun fi => rfl)
    | some a' =>
      show SchemaBuilder.list b t (some a') cls prop = _
      simp only [SchemaBuilder.list, setFieldAttr_twice]
      exact setFieldAttr_congr _ _ _ _ _ (fun fi => rfl)

theorem annUpd_comm (k : Option TKind) (a1 a2 : Ann) (fi : FieldInfo)
    (htag : a1.tag ≠ a2.tag) (hty : ¬(a1.setsType = true ∧ a2.setsType = true)) :
    annUpd k a1 (annUpd k a2 fi) = annUpd k a2 (annUpd k a1 fi) := by
  cases a1 <;> cases a2
  case description.description => exact absurd rfl htag
  case resolve.resolve => exact absurd rfl htag
  case nonNull.nonNull => exact absurd rfl htag
  case nonNullItems.nonNullItems => exact absurd rfl htag
  case field.field t1 f1 t2 f2 => exact absurd rfl htag
  case list.list t1 l1 t2 l2 => exact absurd rfl htag
  case field.list t1 f1 t2 l2 => exact absurd ⟨rfl, rfl⟩ hty
  case list.field t1 l1 t2 f2 => exact absurd ⟨rfl, rfl⟩ hty
  case description.resolve => rfl
  case description.nonNull => rfl
  case description.nonNullItems => rfl
  case resolve.description => rfl
  case resolve.nonNull => rfl
  case resolve.nonNullItems => rfl
  case nonNull.description => rfl
  case nonNull.resolve => rfl
  case nonNull.nonNullItems => rfl
  case nonNullItems.description => rfl
  case nonNullItems.resolve => rfl
  case nonNullItems.nonNull => rfl
  case description.field s t fa =>
    cases fa with
    | none => rfl
    | some a' => by_cases hk : k ≠ some TKind.input <;> simp [annUpd, hk]
  case resolve.field r t fa =>
    cases fa with
    | none => rfl
    | some a' => by_cases hk : k ≠ some TKind.input <;> simp [annUpd, hk]
  case nonNull.field t fa =>
    cases fa with
    | none => rfl
    | some a' => by_cases hk : k ≠ some TKind.input <;> simp [annUpd, hk]
  case nonNullItems.field t fa =>
    cases fa with
    | none => rfl
    | some a' => by_cases hk : k ≠ some TKind.input <;> simp [annUpd, hk]
  case field.description t fa s =>
    cases fa with
    | none => rfl
    | some a' => by_cases hk : k ≠ some TKind.input <;> simp [annUpd, hk]
  case field.resolve t fa r =>
    cases fa with
    | none => rfl
    | some a' => by_cases hk : k ≠ some TKind.input <;> simp [annUpd, hk]
  case field.nonNull t fa =>
    cases fa with
    | none => rfl
    | some a' => by_cases hk : k ≠ some TKind.input <;> simp [annUpd, hk]
  case field.nonNullItems t fa =>
    cases fa with
    | none => rfl
    | some a' => by_cases hk : k ≠ some TKind.input <;> simp [annUpd, hk]
  case description.list s t la =>
    cases la with
    | none => rfl
    | some a' => rfl
  case resolve.list r t la =>
    cases la with
    | none => rfl
    | some a' => rfl
  case nonNull.list t la =>
    cases la with
    | none => rfl
    | some a' => rfl
  case nonNullItems.list t la =>
    cases la with
    | none => rfl
    | some a' => rfl
  case list.description t la s =>
    cases la with
    | none => rfl
    | some a' => rfl
  case list.resolve t la r =>
    cases la with
    | none => rfl
    | some a' => rfl
  case list.nonNull t la =>
    cases la with
    | none => rfl
    | some a' => rfl
  case list.nonNullItems t la =>
    cases la with
    | none => rfl
    | some a' => rfl

theorem AMap.find_isSome_of_mem {κ α : Type} [DecidableEq κ] (h : AMap κ α) (k : κ)
    (hk : k ∈ h.map Prod.fst) : (AMap.find h k).isSome := by
  induction h with
  | nil => simp at hk
  | cons p rest ih =>
    by_cases hp : p.1 = k
    · simp [AMap.find, hp]
    · simp only [List.map_cons, List.mem_cons] at hk
      rcases hk with hk | hk
    
      · exact absurd hk.symm hp
      · simp [AMap.find, hp, ih hk]

theorem updEnumValues_find_absent (vals vs : Hash EnumValueInfo) (n : String)
    (hn : n ∉ vs.map Prod.fst) :
    AMap.find (updEnumValues vals vs) n = AMap.find vals n := by
  induction vs generalizing vals with
  | nil => rfl
  | cons p rest ih =>
    simp only [List.map_cons, List.mem_cons] at hn
    push_neg at hn
    show AMap.find (updEnumValues (AMap.set vals p.1 _) rest) n = _
    rw [ih _ hn.2, AMap.find_set_ne _ _ _ _ hn.1]

theorem updEnumValues_find_mem (vals vs : Hash EnumValueInfo) (n : String) (pv : EnumValueInfo)
    (hnd : (vs.map Prod.fst).Nodup) (hm : AMap.find vs n = some pv) :
    AMap.find (updEnumValues vals vs) n
      = some { value := ((AMap.find vals n).getD {}).value
               description := pv.description
               deprecationReason := pv.deprecationReason } := by
  induction vs generalizing vals with
  | nil => simp [AMap.find] at hm
  | cons p rest ih =>
    simp only [List.map_cons, List.nodup_cons] at hnd
    by_cases hp : p.1 = n
    · subst hp
      rw [AMap.find] at hm
      simp at hm
      subst hm
      show AMap.find (updEnumValues (AMap.set vals p.1 _) rest) p.1 = _
      rw [updEnumValues_find_absent _ _ _ hnd.1, AMap.find_set_self]
    · rw [AMap.find] at hm
      rw [if_neg hp] at hm
      show AMap.find (updEnumValues (AMap.set vals p.1 _) rest) n = _
      rw [ih _ hnd.2 hm, AMap.find_set_ne _ _ _ _ (Ne.symm hp)]

/-- Claim C1 (code bug): the source's own documentation promises that only
values whitelisted in the `decorateEnum` call's `values` map are exposed, but
`getOrAddEnum` seeds the record with every underlying entry and `build()`
materializes them all: an enum with four underlying values and a two-name
whitelist compiles to an enum type exposing all four values. -/
theorem enum_whitelist_code_bug :
    buildEnumValueNames exEnum4Builder "E" = some ["a", "b", "c", "d"]
      ∧ "c" ∉ (exEnum4Args.values.getD []).map Prod.fst
      ∧ "d" ∉ (exEnum4Args.values.getD []).map Prod.fst := by
  refine ⟨by decide, by decide, by decide⟩

/-- Claim C2: `convertFieldInfoToType` applies the modifiers in the fixed
order the specification states (item non-null, then list, then outer
non-null unless already non-null); in particular list+nonNullItems+nonNull
gives a non-null list of non-null items, list+nonNull alone gives a non-null
list of nullable items, and no modifiers give the bare resolved type. -/
theorem field_modifier_order (conv : TypeRef → Except String GType) (fi : FieldInfo)
    (t : TypeRef) (base : GType) (ht : fi.type = some t) (hc : conv t = .ok base) :
    convertFieldInfoToType conv (.fieldLike fi)
        = .ok (specModifierWrap fi.nonNullItems fi.list fi.nonNull base)
      ∧ (fi.list = true → fi.nonNullItems = true → fi.nonNull = true →
          convertFieldInfoToType conv (.fieldLike fi)
            = .ok (.nonNullT (.listT (.nonNullT base))))
      ∧ (fi.list = true → fi.nonNull = true → fi.nonNullItems = false →
          convertFieldInfoToType conv (.fieldLike fi) = .ok (.nonNullT (.listT base)))
      ∧ (fi.list = false → fi.nonNull = false → fi.nonNullItems = false →
          convertFieldInfoToType conv (.fieldLike fi) = .ok base) := by
  have hmain : convertFieldInfoToType conv (.fieldLike fi)
      = .ok (specModifierWrap fi.nonNullItems fi.list fi.nonNull base) := by
    simp only [convertFieldInfoToType, ht, hc, specModifierWrap]
  refine ⟨hmain, ?_, ?_, ?_⟩
  · intro h1 h2 h3
    rw [hmain]
    simp [specModifierWrap, h1, h2, h3, isNonNull]
  · intro h1 h2 h3
    rw [hmain]
    simp [specModifierWrap, h1, h2, h3, isNonNull]
  · intro h1 h2 h3
    rw [hmain]
    simp [specModifierWrap, h1, h2, h3]

/-- Claim C2 witness: a concrete field marked list+nonNullItems+nonNull over
the string scalar compiles to a non-null list of non-null strings. -/
theorem field_modifier_order_witness :
    convertFieldInfoToType (convertOutputType (envOf SchemaBuilder.empty)) (.fieldLike exListField)
      = .ok (.nonNullT (.listT (.nonNullT gqlString))) :=
  (field_modifier_order (convertOutputType (envOf SchemaBuilder.empty)) exListField
    (.direct gqlString) gqlString rfl rfl).2.1 rfl rfl rfl

/-- Claim C3: name-based output-type resolution in `build()` checks
materialized enums, then interfaces, then scalars, then object types, and
fails with the `Type ... not defined` error when no registered type matches;
string and thunk references resolve through the same path, and an undeclared
interface reference fails with the `Interface ... not defined` error carrying
the reference. -/
theorem output_resolution_order (b : SchemaBuilder) (n : String) :
    (∀ e, AMap.find (envOf b).enums n = some e →
        resolveName (envOf b) n = .ok (.enumT e))
    ∧ (AMap.find (envOf b).enums n = none → n ∈ (envOf b).interfaceNames →
        resolveName (envOf b) n = .ok (.interfaceRef n))
    ∧ (AMap.find (envOf b).enums n = none → n ∉ (envOf b).interfaceNames →
        ∀ s, AMap.find (envOf b).scalars n = some s →
          resolveName (envOf b) n = .ok (.scalarT s))
    ∧ (AMap.find (envOf b).enums n = none → n ∉ (envOf b).interfaceNames →
        AMap.find (envOf b).scalars n = none → b.hasType n = false →
          resolveName (envOf b) n = .error (typeNotDefinedMsg n))
    ∧ convertOutputType (envOf b) (.nameRef n) = resolveName (envOf b) n
    ∧ (∀ c : ClassRef,
        convertOutputType (envOf b) (.thunk c) = resolveName (envOf b) (className c))
    ∧ (∀ s, s ∉ (envOf b).interfaceNames →
        resolveIfaceEntry (envOf b) (.byName s) = .error (ifaceNotDefinedMsg s)) := by
  refine ⟨?_, ?_, ?_, ?_, rfl, fun c => rfl, ?_⟩
  · intro e he
    simp [resolveName, he]
  · intro he hi
    simp [resolveName, he, hi]
  · intro he hi s hs
    simp [resolveName, he, hi, hs]
  · intro he hi hs hh
    have hmem : n ∉ (envOf b).typeNames := by
      intro hm
      have hsome := AMap.find_isSome_of_mem b.types n (by simpa [envOf] using hm)
      rw [SchemaBuilder.hasType] at hh
      rw [hh] at hsome
      exact Bool.noConfusion hsome
    simp [resolveName, he, hi, hs, hmem]
  · intro s hs
    simp [resolveIfaceEntry, hs]

/-- Claim C3 witness: in a registry holding only an interface `I`, the name
`I` resolves to that interface and the unknown name `Missing` raises the
`Type ... not defined` error. -/
theorem output_resolution_order_witness :
    resolveName (envOf exIfaceBuilder) "I" = .ok (.interfaceRef "I")
      ∧ resolveName (envOf exIfaceBuilder) "Missing" = .error (typeNotDefinedMsg "Missing") :=
  ⟨(output_resolution_order exIfaceBuilder "I").2.1 (by decide) (by decide),
   (output_resolution_order exIfaceBuilder "Missing").2.2.2.1
     (by decide) (by decide) (by decide) (by decide)⟩

/-- Claim C4: the field set `build()` assembles for a type is the root-to-self
merge of the own field maps of its registered ancestors: a lookup in the
merged map returns the nearest (most derived) declaration of that field name,
and the merged map contains each field name exactly once. -/
theorem inheritance_field_merge (b : SchemaBuilder) (target : ClassRef) (fname : String)
    (hnd : ∀ p ∈ buildParents b target, (p.fields.map Prod.fst).Nodup) :
    AMap.find (mergedFields b target) fname
        = firstHit (fun p => AMap.find p.fields fname)
            ((getInheritanceTree target).filterMap (fun c => b.findByClass c))
      ∧ ((mergedFields b target).map Prod.fst).Nodup := by
  constructor
  · rw [mergedFields, find_foldl_merge _ _ _ hnd]
    have hrev : (buildParents b target).reverse
        = (getInheritanceTree target).filterMap (fun c => b.findByClass c) := by
      rw [buildParents, filterMap_rev, List.reverse_reverse]
    rw [hrev]
    cases firstHit (fun p => AMap.find p.fields fname)
        ((getInheritanceTree target).filterMap (fun c => b.findByClass c)) with
    | some v => rfl
    | none => rfl
  · exact nodup_keys_foldl_merge _ _ (by simp)

/-- Claim C4 witness: with `B extends A` both declaring `x`, the merged field
map of `B` holds `B`'s record for `x` (the first hit along the self-first
ancestor chain) and has no duplicate names. -/
theorem inheritance_field_merge_witness :
    (∀ p ∈ buildParents exInheritBuilder exClassB, (p.fields.map Prod.fst).Nodup)
      ∧ AMap.find (mergedFields exInheritBuilder exClassB) "x"
          = firstHit (fun p => AMap.find p.fields "x")
              ((getInheritanceTree exClassB).filterMap (fun c => exInheritBuilder.findByClass c))
      ∧ ((mergedFields exInheritBuilder exClassB).map Prod.fst).Nodup := by
  have h : ∀ p ∈ buildParents exInheritBuilder exClassB, (p.fields.map Prod.fst).Nodup := by
    decide
  exact ⟨h, (inheritance_field_merge exInheritBuilder exClassB "x" h).1,
         (inheritance_field_merge exInheritBuilder exClassB "x" h).2⟩

/-- Claim C5: `build()` performs no mutation of the registry (the `types` and
`enums` stores are returned unchanged) and a second `build()` on the registry
a first call leaves behind produces an identical compiled schema. -/
theorem build_readonly_deterministic (b : SchemaBuilder) :
    (b.build).2 = b
      ∧ (b.build).2.types = b.types
      ∧ (b.build).2.enums = b.enums
      ∧ ((b.build).2.build).1 = (b.build).1 :=
  ⟨rfl, rfl, rfl, rfl⟩

theorem convertOps_empty_iff (env : BuildEnv) (acc : Hash OpFieldOut)
    (ops : Hash ResolverInfo) (r : Hash OpFieldOut)
    (h : convertOps env acc ops = .ok r) : r = [] ↔ acc = [] ∧ ops = [] := by
  induction ops generalizing acc with
  | nil =>
    simp only [convertOps, Except.ok.injEq] at h
    subst h
    simp
  | cons p rest ih =>
    simp only [convertOps] at h
    cases hop : materializeOp env p.2 with
    | error e => simp [hop] at h
    | ok f =>
      rw [hop] at h
      have hr := ih _ h
      have hset : AMap.set acc p.1 f ≠ [] := by
        cases acc with
        | nil => simp [AMap.set]
        | cons q t =>
          by_cases hq : q.1 = p.1 <;> simp [AMap.set, hq]
      constructor
      · intro hre
        exact absurd (hr.mp hre).1 hset
      · rintro ⟨-, hc⟩
        exact absurd hc (by simp)

theorem collectRoots_empty_iff (env : BuildEnv)
    (acc : Hash OpFieldOut × Hash OpFieldOut × Hash OpFieldOut)
    (ts : Hash TypeInfo) (r : Hash OpFieldOut × Hash OpFieldOut × Hash OpFieldOut)
    (h : collectRoots env acc ts = .ok r) :
    (r.2.1 = [] ↔ acc.2.1 = [] ∧ ∀ p ∈ ts, p.2.mutations = [])
      ∧ (r.2.2 = [] ↔ acc.2.2 = [] ∧ ∀ p ∈ ts, p.2.subscriptions = []) := by
  induction ts generalizing acc with
  | nil =>
    simp only [collectRoots, Except.ok.injEq] at h
    subst h
    simp
  | cons p rest ih =>
    simp only [collectRoots] at h
    cases h1 : convertOps env acc.1 p.2.queries with
    | error e => simp [h1] at h
    | ok qs =>
      rw [h1] at h
      cases h2 : convertOps env acc.2.1 p.2.mutations with
      | error e => simp [h2] at h
      | ok ms =>
        rw [h2] at h
        cases h3 : convertOps env acc.2.2 p.2.subscriptions with
        | error e => simp [h3] at h
        | ok ss =>
          rw [h3] at h
          have hms := convertOps_empty_iff env acc.2.1 p.2.mutations ms h2
          have hss := convertOps_empty_iff env acc.2.2 p.2.subscriptions ss h3
          have hrest := ih (qs, ms, ss) h
          constructor
          · rw [hrest.1]
            simp only [hms, List.forall_mem_cons]
            tauto
          · rw [hrest.2]
            simp only [hss, List.forall_mem_cons]
            tauto

theorem build_ok_shape (b : SchemaBuilder) (out : BuildOutput) (h : (b.build).1 = .ok out) :
    ∃ qs ms ss, collectRoots (envOf b) ([], [], []) b.types = .ok (qs, ms, ss)
      ∧ out.query = { name := "Query", fields := qs }
      ∧ out.mutation = (match ms with
          | [] => none
          | ms' => some { name := "Mutation", fields := ms' })
      ∧ out.subscription = (match ss with
          | [] => none
          | ss' => some { name := "Subscriptions", fields := ss' }) := by
  simp only [SchemaBuilder.build, buildParts] at h
  cases hcr : collectRoots (envOf b) ([], [], []) b.types with
  | error e => simp [hcr] at h
  | ok roots =>
    obtain ⟨qs, ms, ss⟩ := roots
    simp only [hcr] at h
    cases h1 : materializeInterfaces b (envOf b) [] b.types with
    | error e => simp [h1] at h
    | ok ifaces =>
      simp only [h1] at h
      cases h2 : materializeObjects b (envOf b) [] b.types with
      | error e => simp [h2] at h
      | ok objs =>
        simp only [h2] at h
        cases h3 : materializeInputs b (envOf b) [] b.types with
        | error e => simp [h3] at h
        | ok inputs =>
          simp only [h3, Except.ok.injEq] at h
          refine ⟨qs, ms, ss, rfl, ?_⟩
          rw [← h]
          exact ⟨rfl, rfl, rfl⟩

/-- Claim C6: in a compiled schema, the Mutation root is present exactly when
some registered record holds a mutation, the Subscriptions root exactly when
some record holds a subscription, and the Query root is always present. -/
theorem root_presence (b : SchemaBuilder) (out : BuildOutput) (h : (b.build).1 = .ok out) :
    (out.mutation.isSome = true ↔ ∃ p ∈ b.types, p.2.mutations ≠ [])
      ∧ (out.subscription.isSome = true ↔ ∃ p ∈ b.types, p.2.subscriptions ≠ [])
      ∧ out.query.name = "Query" := by
  obtain ⟨qs, ms, ss, hcr, hq, hm, hs⟩ := build_ok_shape b out h
  have hiff := collectRoots_empty_iff (envOf b) ([], [], []) b.types _ hcr
  refine ⟨?_, ?_, by rw [hq]⟩
  · rw [hm]
    cases hms : ms with
    | nil =>
      have hall := (hiff.1.mp hms).2
      simp only [Option.isSome_none, Bool.false_eq_true, false_iff]
      rintro ⟨p, hp, hne⟩
      exact hne (hall p hp)
    | cons q rest =>
      simp only [Option.isSome_some, true_iff]
      have hne : ¬(∀ p ∈ b.types, p.2.mutations = []) := by
        intro hall
        have : ms = [] := hiff.1.mpr ⟨rfl, hall⟩
        rw [hms] at this
        cases this
      push_neg at hne
      exact hne
  · rw [hs]
    cases hss : ss with
    | nil =>
      have hall := (hiff.2.mp hss).2
      simp only [Option.isSome_none, Bool.false_eq_true, false_iff]
      rintro ⟨p, hp, hne⟩
      exact hne (hall p hp)
    | cons q rest =>
      simp only [Option.isSome_some, true_iff]
      have hne : ¬(∀ p ∈ b.types, p.2.subscriptions = []) := by
        intro hall
        have : ss = [] := hiff.2.mpr ⟨rfl, hall⟩
        rw [hss] at this
        cases this
      push_neg at hne
      exact hne

/-- Claim C6 witness: the registry with one mutation and one subscription
compiles with both optional roots present and the Query root named Query. -/
theorem root_presence_witness :
    (exOpsBuildOut.mutation.isSome = true ↔ ∃ p ∈ exOpsBuilder.types, p.2.mutations ≠ [])
      ∧ (exOpsBuildOut.subscription.isSome = true
          ↔ ∃ p ∈ exOpsBuilder.types, p.2.subscriptions ≠ [])
      ∧ exOpsBuildOut.query.name = "Query" :=
  root_presence exOpsBuilder exOpsBuildOut rfl

/-- Claim C7 counterexample: `field` and `list` both write the field record's
`type` attribute, so applying `field(A)` then `list(B)` leaves type `B` while
the reverse order leaves type `A` — the two orders give different registries. -/
theorem decorator_commute_cex :
    applyAnn (applyAnn SchemaBuilder.empty "T" "p" (.field (.nameRef "A") none)) "T" "p"
        (.list (.nameRef "B") none)
      ≠ applyAnn (applyAnn SchemaBuilder.empty "T" "p" (.list (.nameRef "B") none)) "T" "p"
        (.field (.nameRef "A") none) := by
  decide

/-- Claim C7 (amended): any two distinct property annotations among
description, field, resolve, list, nonNull and nonNullItems commute on the
same property, except the pair field/list, which both write the `type` (and
possibly `args`) attribute. -/
theorem decorator_commute_amended (b : SchemaBuilder) (cls prop : String) (a1 a2 : Ann)
    (htag : a1.tag ≠ a2.tag) (hty : ¬(a1.setsType = true ∧ a2.setsType = true)) :
    applyAnn (applyAnn b cls prop a1) cls prop a2
      = applyAnn (applyAnn b cls prop a2) cls prop a1 := by
  simp only [applyAnn_norm, readKind_setFieldAttr, setFieldAttr_twice]
  exact setFieldAttr_congr _ _ _ _ _
    (fun fi => annUpd_comm (readKind b cls) a2 a1 fi (Ne.symm htag)
      (fun hc => hty ⟨hc.2, hc.1⟩))

/-- Claim C7 witness: `description` and `nonNull` commute on a concrete
property of a fresh registry. -/
theorem decorator_commute_amended_witness :
    applyAnn (applyAnn SchemaBuilder.empty "T" "p" (.description "d")) "T" "p" .nonNull
      = applyAnn (applyAnn SchemaBuilder.empty "T" "p" .nonNull) "T" "p" (.description "d") :=
  decorator_commute_amended SchemaBuilder.empty "T" "p" (.description "d") .nonNull
    (by decide) (by decide)

/-- Claim C8 counterexample: a second `decorateEnum` call that supplies no
description wipes the previously stored description (the source assigns
`info.description = args.description` unconditionally), so previously set
data is overwritten even though the caller supplied no new value. -/
theorem enum_upsert_cex :
    enumDescAt exEnum1Builder 0 = some (some "d")
      ∧ enumDescAt exEnum1Builder2 0 = some none := by
  exact ⟨by decide, by decide⟩

/-- Claim C8 (amended): re-registering a known enum identity (with a valid
name) returns the stored record and leaves the registry untouched, and a
later `decorateEnum` call succeeds, always overwrites the record's
description with the call's (possibly absent) description, keeps its name,
leaves every value name absent from the call's `values` map unchanged, and
for each supplied value name overwrites that entry's description and
deprecation reason with the supplied sub-fields while keeping its underlying
value — last write wins per supplied value name, not per record. -/
theorem enum_upsert_amended (b : SchemaBuilder) (o : EnumObject)
    (args : EnumDecorationArguments) (info : EnumInfo)
    (hpresent : AMap.find b.enums o.id = some info)
    (hname : invalidEnumName args.name = false)
    (hnd : ((args.values.getD []).map Prod.fst).Nodup) :
    b.getOrAddEnum o args.name = (.ok info, b)
      ∧ (b.decorateEnum o args).1 = .ok ()
      ∧ ∀ info', enumInfoAfter b o args = some info' →
          info'.name = info.name
          ∧ info'.description = args.description
          ∧ (∀ n, AMap.find (args.values.getD []) n = none →
              AMap.find info'.values n = AMap.find info.values n)
          ∧ (∀ n pv, AMap.find (args.values.getD []) n = some pv →
              AMap.find info'.values n
                = some { value := ((AMap.find info.values n).getD {}).value
                         description := pv.description
                         deprecationReason := pv.deprecationReason }) := by
  have hga : b.getOrAddEnum o args.name = (.ok info, b) := by
    simp [SchemaBuilder.getOrAddEnum, hname, hpresent]
  refine ⟨hga, ?_, ?_⟩
  · simp [SchemaBuilder.decorateEnum, hga]
  · intro info' hinfo'
    rw [enumInfoAfter] at hinfo'
    cases hv : args.values with
    | none =>
      rw [hv] at hnd
      have hd : (b.decorateEnum o args).2
          = { b with
              enums := AMap.set b.enums o.id
                  ({ info with description := args.description }) } := by
        simp [SchemaBuilder.decorateEnum, hga, hv]
      rw [hd] at hinfo'
      simp only at hinfo'
      rw [AMap.find_set_self] at hinfo'
      injection hinfo' with h5
      rw [← h5]
      refine ⟨rfl, rfl, fun n _ => rfl, fun n pv hpv => ?_⟩
      simp [AMap.find] at hpv
    | some vs =>
      rw [hv] at hnd
      simp only [Option.getD_some] at hnd
      have hd : (b.decorateEnum o args).2
          = { b with
              enums := AMap.set b.enums o.id
                  ({ info with
                     description := args.description
                     values := updEnumValues info.values vs }) } := by
        simp [SchemaBuilder.decorateEnum, hga, hv]
      rw [hd] at hinfo'
      simp only at hinfo'
      rw [AMap.find_set_self] at hinfo'
      injection hinfo' with h5
      rw [← h5]
      refine ⟨rfl, rfl, fun n hn => ?_, fun n pv hpv => ?_⟩
      · simp only [Option.getD_some] at hn
        have hnm : n ∉ vs.map Prod.fst := by
          intro hmem
          have := AMap.find_isSome_of_mem vs n hmem
          rw [hn] at this
          cases this
        exact updEnumValues_find_absent _ _ _ hnm
      · simp only [Option.getD_some] at hpv
        exact updEnumValues_find_mem _ _ _ _ hnd hpv

/-- Claim C8 witness: re-registering the concrete decorated enum identity
returns the stored record without touching the registry. -/
theorem enum_upsert_amended_witness :
    exEnum1Builder.getOrAddEnum exEnum1 exWitnessArgs.name
      = (.ok exEnum1Info, exEnum1Builder) :=
  (enum_upsert_amended exEnum1Builder exEnum1 exWitnessArgs exEnum1Info
    rfl (by decide) (by decide)).1

/-- Claim C9 counterexample: the name guard also rejects a whitespace-only
name: `" "` is a non-empty string, yet `decorateEnum` raises the invalid-name
error for it (and leaves the registry unchanged). -/
theorem enum_name_guard_cex :
    (" " : String) ≠ ""
      ∧ (SchemaBuilder.empty.decorateEnum exEnum1 { name := some " " }).1
          = .error (invalidNameMsg (some " "))
      ∧ (SchemaBuilder.empty.decorateEnum exEnum1 { name := some " " }).2
          = SchemaBuilder.empty := by
  refine ⟨by decide, by decide, by decide⟩

/-- Claim C9 (amended): `decorateEnum` raises the invalid-name error exactly
for a missing, empty, or whitespace-only name, synchronously and with the
registry left unchanged; with a name containing a non-whitespace character
the call either succeeds or fails only with the distinct error JS raises for
an empty underlying enum object. -/
theorem enum_name_guard_amended (b : SchemaBuilder) (o : EnumObject)
    (args : EnumDecorationArguments) :
    (invalidEnumName args.name = true →
        b.decorateEnum o args = (.error (invalidNameMsg args.name), b))
      ∧ (invalidEnumName args.name = false →
          (b.decorateEnum o args).1 = .ok ()
            ∨ (b.decorateEnum o args).1 = .error reduceEmptyMsg) := by
  constructor
  · intro hbad
    simp [SchemaBuilder.decorateEnum, SchemaBuilder.getOrAddEnum, hbad]
  · intro hgood
    cases hfind : AMap.find b.enums o.id with
    | some info =>
      left
      simp [SchemaBuilder.decorateEnum, SchemaBuilder.getOrAddEnum, hgood, hfind]
    | none =>
      cases hbv : baseValues o.entries with
      | none =>
        right
        simp [SchemaBuilder.decorateEnum, SchemaBuilder.getOrAddEnum, hgood, hfind, hbv]
      | some vals =>
        left
        simp [SchemaBuilder.decorateEnum, SchemaBuilder.getOrAddEnum, hgood, hfind, hbv]

/-- Claim C9 witness: a missing name raises the invalid-name error and leaves
the fresh registry unchanged; the non-blank name `Ok` never does. -/
theorem enum_name_guard_amended_witness :
    (SchemaBuilder.empty.decorateEnum exEnum1 { name := none })
        = (.error (invalidNameMsg none), SchemaBuilder.empty)
      ∧ ((SchemaBuilder.empty.decorateEnum exEnum1 { name := some "Ok" }).1 = .ok ()
          ∨ (SchemaBuilder.empty.decorateEnum exEnum1 { name := some "Ok" }).1
              = .error reduceEmptyMsg) :=
  ⟨(enum_name_guard_amended SchemaBuilder.empty exEnum1 { name := none }).1 (by decide),
   (enum_name_guard_amended SchemaBuilder.empty exEnum1 { name := some "Ok" }).2 (by decide)⟩

/-- Claim C10: every compiled schema's root objects carry the fixed names
Query, Mutation and Subscriptions (the subscription root's name ends in `s`),
whatever the declaring classes were called. -/
theorem root_names (b : SchemaBuilder) (out : BuildOutput) (h : (b.build).1 = .ok out) :
    out.query.name = "Query"
      ∧ (∀ m, out.mutation = some m → m.name = "Mutation")
      ∧ (∀ s, out.subscription = some s → s.name = "Subscriptions") := by
  obtain ⟨qs, ms, ss, hcr, hq, hm, hs⟩ := build_ok_shape b out h
  refine ⟨by rw [hq], ?_, ?_⟩
  · intro m hmm
    rw [hm] at hmm
    cases ms with
    | nil => cases hmm
    | cons q rest =>
      injection hmm with h4
      rw [← h4]
  · intro s hss
    rw [hs] at hss
    cases ss with
    | nil => cases hss
    | cons q rest =>
      injection hss with h4
      rw [← h4]

/-- Claim C10 witness: the concrete one-mutation registry compiles to roots
named Query, Mutation and Subscriptions. -/
theorem root_names_witness :
    exOpsBuildOut.query.name = "Query"
      ∧ (∀ m, exOpsBuildOut.mutation = some m → m.name = "Mutation")
      ∧ (∀ s, exOpsBuildOut.subscription = some s → s.name = "Subscriptions") :=
  root_names exOpsBuilder exOpsBuildOut rfl
